import Mathlib

/-!
Shallow embedding of `scripts/run_all_mcdviral_ntu.py`, the batch driver that
runs one roslaunch invocation per NTU dataset folder.

The script has two parts:

* a folder selector `find_dirs` that globs `ntu_day_*` / `ntu_night_*`
  directly under the root and under `root/unpublished_sequences`, keeps
  directories only, and deduplicates by resolved path;
* a run driver `run_roslaunch_for_folder` that spawns roslaunch, waits,
  forwards SIGINT with a 20 s grace period on KeyboardInterrupt, and always
  cleans up a still-running child (terminate, 10 s grace, kill) before
  sleeping `sleep_after` seconds.

The filesystem and the child process are modelled abstractly: an `FS` record
supplies the directory listings, the `is_dir` predicate and the `resolve`
canonicalisation, and a `Scenario` record says how the child behaves on one
run (how `Popen`/`wait` end, whether the child is still running at the
relevant poll points).
-/

namespace RunAllNtu

/-- Character-list test: `pat` is a leading segment of `s`.  This is the
semantics of the glob patterns `ntu_day_*` and `ntu_night_*` used by the
script: `*` matches any (possibly empty) tail of the entry name. -/
def chPrefix : List Char → List Char → Bool
  | [], _ => true
  | _ :: _, [] => false
  | a :: asx, b :: bs => a == b && chPrefix asx bs

/-- The glob pattern `ntu_day_*`, as the fixed characters before the `*`. -/
def dayPat : List Char := ['n', 't', 'u', '_', 'd', 'a', 'y', '_']

/-- The glob pattern `ntu_night_*`, as the fixed characters before the `*`. -/
def nightPat : List Char := ['n', 't', 'u', '_', 'n', 'i', 'g', 'h', 't', '_']

/-- Whether directory-entry name `s` matches the glob pattern `pat ++ "*"`. -/
def strMatches (pat : List Char) (s : String) : Bool := chPrefix pat s.data

theorem dayPat_eq_data : dayPat = "ntu_day_".data := by decide

theorem nightPat_eq_data : nightPat = "ntu_night_".data := by decide

/-- A candidate path produced by the selector: an entry name, either directly
under the root (`underUnpub = false`) or under `root/unpublished_sequences`
(`underUnpub = true`). -/
structure NtuPath where
  underUnpub : Bool
  name : String
deriving DecidableEq, Repr

/-- Abstract filesystem as seen by `find_dirs`: the entry names in the two
globbed directories, whether `root/unpublished_sequences` is a directory,
and the `is_dir` / `resolve` primitives of `pathlib` on candidate paths. -/
structure FS where
  rootNames : List String
  unpubNames : List String
  unpubIsDir : Bool
  isDirAt : Bool → String → Bool
  resolveAt : Bool → String → String

def FS.isDir (fs : FS) (p : NtuPath) : Bool := fs.isDirAt p.underUnpub p.name

def FS.resolve (fs : FS) (p : NtuPath) : String := fs.resolveAt p.underUnpub p.name

/-- Lexicographic comparison of character lists by Unicode code point —
Python's string comparison, which is how `sorted` orders the glob results
(all matches share the parent directory, so comparing the `Path` objects
compares the entry names). -/
def lexLe : List Char → List Char → Bool
  | [], _ => true
  | _ :: _, [] => false
  | a :: asx, b :: bs =>
    if a.toNat < b.toNat then true
    else if b.toNat < a.toNat then false
    else lexLe asx bs

/-- `a` sorts before or with `b` in Python's string order. -/
def strLe (a b : String) : Prop := lexLe a.data b.data = true

instance : DecidableRel strLe := fun a b =>
  inferInstanceAs (Decidable (lexLe a.data b.data = true))

theorem lexLe_total : ∀ l1 l2 : List Char, lexLe l1 l2 = true ∨ lexLe l2 l1 = true := by
  intro l1
  induction l1 with
  | nil => intro l2; left; cases l2 <;> rfl
  | cons a asx ih =>
    intro l2
    cases l2 with
    | nil => right; rfl
    | cons b bs =>
      simp only [lexLe]
      rcases Nat.lt_trichotomy a.toNat b.toNat with h | h | h
      · left; simp [h]
      · have h1 : ¬ a.toNat < b.toNat := by omega
        have h2 : ¬ b.toNat < a.toNat := by omega
        rcases ih bs with h3 | h3
        · left; simp [h1, h2, h3]
        · right; simp [h1, h2, h3]
      · right; simp [h]

theorem lexLe_trans : ∀ l1 l2 l3 : List Char,
    lexLe l1 l2 = true → lexLe l2 l3 = true → lexLe l1 l3 = true := by
  intro l1
  induction l1 with
  | nil => intro l2 l3 _ _; cases l3 <;> rfl
  | cons a asx ih =>
    intro l2 l3 h12 h23
    cases l2 with
    | nil => simp [lexLe] at h12
    | cons b bs =>
      cases l3 with
      | nil => simp [lexLe] at h23
      | cons c cs =>
        simp only [lexLe] at h12 h23 ⊢
        by_cases hab : a.toNat < b.toNat
        · by_cases hbc : b.toNat < c.toNat
          · have h : a.toNat < c.toNat := by omega
            simp [h]
          · by_cases hcb : c.toNat < b.toNat
            · rw [if_neg hbc, if_pos hcb] at h23; exact absurd h23 (by simp)
            · have h : a.toNat < c.toNat := by omega
              simp [h]
        · by_cases hba : b.toNat < a.toNat
          · rw [if_neg hab, if_pos hba] at h12; exact absurd h12 (by simp)
          · rw [if_neg hab, if_neg hba] at h12
            by_cases hbc : b.toNat < c.toNat
            · have h : a.toNat < c.toNat := by omega
              simp [h]
            · by_cases hcb : c.toNat < b.toNat
              · rw [if_neg hbc, if_pos hcb] at h23; exact absurd h23 (by simp)
              · rw [if_neg hbc, if_neg hcb] at h23
                have h1 : ¬ a.toNat < c.toNat := by omega
                have h2 : ¬ c.toNat < a.toNat := by omega
                rw [if_neg h1, if_neg h2]
                exact ih bs cs h12 h23

instance : IsTotal String strLe := ⟨fun a b => lexLe_total a.data b.data⟩

instance : IsTrans String strLe := ⟨fun a b c => lexLe_trans a.data b.data c.data⟩

/-- `sorted(dir.glob(pat ++ "*"))`: the matching entry names, sorted
lexicographically. -/
def globSorted (names : List String) (pat : List Char) : List String :=
  List.insertionSort strLe (names.filter (fun n => strMatches pat n))

/-- `only in ("all", "day")` from the script. -/
def want_day (only : String) : Bool := only == "all" || only == "day"

/-- `only in ("all", "night")` from the script. -/
def want_night (only : String) : Bool := only == "all" || only == "night"

/-- The `dirs` list built by `find_dirs` before the directory filter and the
deduplication: published day glob, published night glob, unpublished day
glob, unpublished night glob, each gated by the filters, in that order. -/
def candidates (fs : FS) (only : String) (include_published include_unpublished : Bool) :
    List NtuPath :=
  (if include_published then
      (if want_day only then (globSorted fs.rootNames dayPat).map (fun n => ⟨false, n⟩) else [])
        ++
      (if want_night only then (globSorted fs.rootNames nightPat).map (fun n => ⟨false, n⟩) else [])
    else [])
    ++
  (if include_unpublished && fs.unpubIsDir then
      (if want_day only then (globSorted fs.unpubNames dayPat).map (fun n => ⟨true, n⟩) else [])
        ++
      (if want_night only then (globSorted fs.unpubNames nightPat).map (fun n => ⟨true, n⟩) else [])
    else [])

/-- The `out`/`seen` loop at the end of `find_dirs`: keep directories only,
and keep only the first candidate for each resolved path. -/
def dedupDirs (fs : FS) : List NtuPath → List String → List NtuPath
  | [], _ => []
  | d :: rest, seen =>
    if fs.isDir d then
      if fs.resolve d ∈ seen then dedupDirs fs rest seen
      else d :: dedupDirs fs rest (fs.resolve d :: seen)
    else dedupDirs fs rest seen

/-- `find_dirs(root, only, include_published, include_unpublished)`. -/
def find_dirs (fs : FS) (only : String) (include_published include_unpublished : Bool) :
    List NtuPath :=
  dedupDirs fs (candidates fs only include_published include_unpublished) []

/-! ## Run driver -/

/-- The command line built by `run_roslaunch_for_folder`: the roslaunch entry
point, the launch file, the `bag_file` argument with the literal `*`
wildcard, the autorun flag, then the pass-through extra arguments (Python
extends `args` only when `extra_args` is truthy, i.e. non-empty). -/
def buildArgs (launch_file folder : String) (autorun : Bool) (extra_args : List String) :
    List String :=
  let bag_arg := "bag_file:=" ++ folder ++ "/" ++ "*.bag"
  let args := ["roslaunch", launch_file, bag_arg,
    "autorun:=" ++ (if autorun then "true" else "false")]
  if extra_args.isEmpty then args else args ++ extra_args

/-- How the blocking `proc.wait()` call ends in one run. -/
inductive WaitRes where
  | ret (rc : Int)
  | keyboardInterrupt
  | otherExc
deriving DecidableEq, Repr

/-- The environment-determined behaviour of one folder's child process:
whether `Popen` itself raises, how `proc.wait()` ends, and whether the child
is still running at the two `poll()` checks / exits within the two grace
periods. -/
structure Scenario where
  spawnFails : Bool
  waitRes : WaitRes
  runningAtInterrupt : Bool
  exitsWithinSigintGrace : Bool
  runningAtFinally : Bool
  exitsWithinTermGrace : Bool
deriving DecidableEq, Repr

/-- Observable actions `run_roslaunch_for_folder` performs on the child. -/
inductive Ev where
  | spawn
  | waitNoTimeout
  | sigint
  | waitTimeout (seconds : Nat)
  | terminate
  | kill
deriving DecidableEq, Repr

/-- Terminal state of one folder's run, per the spec's per-folder state
machine `NotStarted → Running → \x7bSucceeded, Failed, Interrupted\x7d`. -/
inductive Status where
  | succeeded
  | failed
  | interrupted
deriving DecidableEq, Repr

/-- Whether the child process exists and is still alive when the function
returns or raises. -/
inductive ChildState where
  | notSpawned
  | running
  | exited
deriving DecidableEq, Repr

structure RunResult where
  events : List Ev
  status : Status
  finalChild : ChildState
  slept : Bool
deriving DecidableEq, Repr

/-- One call of `run_roslaunch_for_folder`, as a function of the child's
behaviour `sc` and of `sleep_after`.  `status = .interrupted` means the
function re-raises the KeyboardInterrupt; otherwise it returns normally.
The `try/except/finally` of the source is unfolded path by path:

* `Popen` raises → caught by `except Exception`; `proc` is `None`, so the
  `finally` block does nothing; the sleep still runs.
* `wait` returns `rc` → `rc = 0` logs success, `rc ≠ 0` raises
  `CalledProcessError`, caught and logged; either way the child has exited
  before `finally`.
* `wait` raises KeyboardInterrupt → if `poll()` shows the child running,
  send SIGINT, `wait(timeout=20)`, and `kill()` on timeout; then `raise`
  re-propagates, skipping the sleep.
* `wait` raises any other exception → caught by `except Exception`; the
  `finally` block terminates a still-running child, `wait(timeout=10)`,
  and `kill()` on timeout. -/
def run_roslaunch_for_folder (sc : Scenario) (sleep_after : ℚ) : RunResult :=
  if sc.spawnFails then
    { events := [], status := .failed, finalChild := .notSpawned,
      slept := decide (0 < sleep_after) }
  else
    match sc.waitRes with
    | .ret rc =>
        { events := [.spawn, .waitNoTimeout],
          status := if rc = 0 then .succeeded else .failed,
          finalChild := .exited, slept := decide (0 < sleep_after) }
    | .keyboardInterrupt =>
        if sc.runningAtInterrupt then
          if sc.exitsWithinSigintGrace then
            { events := [.spawn, .waitNoTimeout, .sigint, .waitTimeout 20],
              status := .interrupted, finalChild := .exited, slept := false }
          else
            { events := [.spawn, .waitNoTimeout, .sigint, .waitTimeout 20, .kill],
              status := .interrupted, finalChild := .exited, slept := false }
        else
          { events := [.spawn, .waitNoTimeout],
            status := .interrupted, finalChild := .exited, slept := false }
    | .otherExc =>
        if sc.runningAtFinally then
          if sc.exitsWithinTermGrace then
            { events := [.spawn, .waitNoTimeout, .terminate, .waitTimeout 10],
              status := .failed, finalChild := .exited,
              slept := decide (0 < sleep_after) }
          else
            { events := [.spawn, .waitNoTimeout, .terminate, .waitTimeout 10, .kill],
              status := .failed, finalChild := .exited,
              slept := decide (0 < sleep_after) }
        else
          { events := [.spawn, .waitNoTimeout], status := .failed,
            finalChild := .exited, slept := decide (0 < sleep_after) }

/-- The per-folder loop in `main`: folders are run in order; a run whose
KeyboardInterrupt re-raises propagates out of the loop, so no later folder
is started. -/
def runBatch (scen : List Scenario) (sleep_after : ℚ) : List RunResult :=
  match scen with
  | [] => []
  | sc :: rest =>
      let r := run_roslaunch_for_folder sc sleep_after
      if r.status = .interrupted then [r] else r :: runBatch rest sleep_after

/-- CLI options that reach the selector and the driver. -/
structure Opts where
  only : String
  publishedOnly : Bool
  unpublishedOnly : Bool
  sleepAfter : ℚ
deriving Repr

/-- Environment of one `main` invocation: the two startup checks, the
filesystem seen by the selector, and each folder's child behaviour. -/
structure Env where
  rootIsDir : Bool
  launchIsFile : Bool
  fs : FS
  scen : NtuPath → Scenario

/-- How the process ends: `sys.exit`/fall-off-the-end with a code, or a
KeyboardInterrupt propagating out of `main`. -/
inductive MainResult where
  | exitCode (c : Nat)
  | aborted
deriving DecidableEq, Repr

/-- The `if args.published_only and args.unpublished_only ...` chain in
`main`, returning `(include_published, include_unpublished)`. -/
def resolveInclusion (publishedOnly unpublishedOnly : Bool) : Bool × Bool :=
  if publishedOnly && unpublishedOnly then (true, true)
  else if publishedOnly then (true, false)
  else if unpublishedOnly then (false, true)
  else (true, true)

/-- The folders `main` selects for the given options. -/
def selectedDirs (env : Env) (opts : Opts) : List NtuPath :=
  find_dirs env.fs opts.only (resolveInclusion opts.publishedOnly opts.unpublishedOnly).1
    (resolveInclusion opts.publishedOnly opts.unpublishedOnly).2

/-- `main()`: startup validation with exit codes 2/3/4, then the per-folder
loop; falling off the end of the script is exit code 0. -/
def main (env : Env) (opts : Opts) : MainResult :=
  if !env.rootIsDir then .exitCode 2
  else if !env.launchIsFile then .exitCode 3
  else
    let dirs := selectedDirs env opts
    if dirs.isEmpty then .exitCode 4
    else
      let results := runBatch (dirs.map env.scen) opts.sleepAfter
      if results.any (fun r => r.status == .interrupted) then .aborted
      else .exitCode 0

/-! ## Lemmas about the selector -/

theorem dedupDirs_sublist (fs : FS) :
    ∀ (l : List NtuPath) (seen : List String), List.Sublist (dedupDirs fs l seen) l
  | [], _ => List.Sublist.refl []
  | d :: rest, seen => by
    simp only [dedupDirs]
    split
    · split
      · exact (dedupDirs_sublist fs rest seen).cons d
      · exact (dedupDirs_sublist fs rest _).cons₂ d
    · exact (dedupDirs_sublist fs rest seen).cons d

theorem isDir_of_mem_dedupDirs (fs : FS) (l : List NtuPath) :
    ∀ (seen : List String) (p : NtuPath), p ∈ dedupDirs fs l seen → fs.isDir p = true := by
  induction l with
  | nil => intro seen p hp; simp [dedupDirs] at hp
  | cons d rest ih =>
    intro seen p hp
    simp only [dedupDirs] at hp
    by_cases hd : fs.isDir d = true
    · rw [if_pos hd] at hp
      by_cases hs : fs.resolve d ∈ seen
      · rw [if_pos hs] at hp; exact ih seen p hp
      · rw [if_neg hs] at hp
        rcases List.mem_cons.1 hp with h | h
        · exact h ▸ hd
        · exact ih _ p h
    · rw [if_neg hd] at hp
      exact ih seen p hp

theorem resolve_not_seen_of_mem_dedupDirs (fs : FS) (l : List NtuPath) :
    ∀ (seen : List String) (p : NtuPath), p ∈ dedupDirs fs l seen →
      fs.resolve p ∉ seen := by
  induction l with
  | nil => intro seen p hp; simp [dedupDirs] at hp
  | cons d rest ih =>
    intro seen p hp
    simp only [dedupDirs] at hp
    by_cases hd : fs.isDir d = true
    · rw [if_pos hd] at hp
      by_cases hs : fs.resolve d ∈ seen
      · rw [if_pos hs] at hp; exact ih seen p hp
      · rw [if_neg hs] at hp
        rcases List.mem_cons.1 hp with h | h
        · rw [h]; exact hs
        · intro hcon
          exact ih _ p h (List.mem_cons_of_mem _ hcon)
    · rw [if_neg hd] at hp
      exact ih seen p hp

theorem nodup_resolve_dedupDirs (fs : FS) (l : List NtuPath) :
    ∀ seen : List String, ((dedupDirs fs l seen).map fs.resolve).Nodup := by
  induction l with
  | nil => intro seen; simp [dedupDirs]
  | cons d rest ih =>
    intro seen
    simp only [dedupDirs]
    by_cases hd : fs.isDir d = true
    · rw [if_pos hd]
      by_cases hs : fs.resolve d ∈ seen
      · rw [if_pos hs]; exact ih seen
      · rw [if_neg hs]
        simp only [List.map_cons, List.nodup_cons]
        refine ⟨?_, ih _⟩
        intro hmem
        rcases List.mem_map.1 hmem with ⟨q, hq, hrq⟩
        exact resolve_not_seen_of_mem_dedupDirs fs rest _ q hq
          (hrq ▸ List.mem_cons_self _ _)
    · rw [if_neg hd]; exact ih seen

theorem find?_of_mem_dedupDirs (fs : FS) (l : List NtuPath) :
    ∀ (seen : List String) (p : NtuPath), p ∈ dedupDirs fs l seen →
      l.find? (fun x => fs.isDir x && (fs.resolve x == fs.resolve p)) = some p := by
  induction l with
  | nil => intro seen p hp; simp [dedupDirs] at hp
  | cons d rest ih =>
    intro seen p hp
    simp only [dedupDirs] at hp
    by_cases hd : fs.isDir d = true
    · rw [if_pos hd] at hp
      by_cases hs : fs.resolve d ∈ seen
      · rw [if_pos hs] at hp
        have hne : fs.resolve d ≠ fs.resolve p := by
          intro hcon
          exact resolve_not_seen_of_mem_dedupDirs fs rest seen p hp (hcon ▸ hs)
        rw [List.find?_cons_of_neg, ih seen p hp]
        simp [hne]
      · rw [if_neg hs] at hp
        rcases List.mem_cons.1 hp with h | h
        · subst h
          rw [List.find?_cons_of_pos]
          simp [hd]
        · have hne : fs.resolve d ≠ fs.resolve p := by
            intro hcon
            exact resolve_not_seen_of_mem_dedupDirs fs rest _ p h
              (hcon ▸ List.mem_cons_self _ _)
          rw [List.find?_cons_of_neg, ih _ p h]
          simp [hne]
    · rw [if_neg hd] at hp
      rw [List.find?_cons_of_neg, ih seen p hp]
      simp [hd]

theorem mem_dedupDirs_exists (fs : FS) (l : List NtuPath) :
    ∀ (seen : List String) (d : NtuPath), d ∈ l → fs.isDir d = true →
      fs.resolve d ∉ seen →
      ∃ p ∈ dedupDirs fs l seen, fs.resolve p = fs.resolve d := by
  induction l with
  | nil => intro seen d hd; simp at hd
  | cons a rest ih =>
    intro seen d hd hdir hseen
    simp only [dedupDirs]
    rcases List.mem_cons.1 hd with h | h
    · subst h
      rw [if_pos hdir, if_neg hseen]
      exact ⟨d, List.mem_cons_self _ _, rfl⟩
    · by_cases ha : fs.isDir a = true
      · rw [if_pos ha]
        by_cases hsa : fs.resolve a ∈ seen
        · rw [if_pos hsa]; exact ih seen d h hdir hseen
        · rw [if_neg hsa]
          by_cases heq : fs.resolve d = fs.resolve a
          · exact ⟨a, List.mem_cons_self _ _, heq.symm⟩
          · have hseen' : fs.resolve d ∉ fs.resolve a :: seen := by
              intro hcon
              rcases List.mem_cons.1 hcon with h1 | h1
              · exact heq h1
              · exact hseen h1
            rcases ih _ d h hdir hseen' with ⟨p, hp, hrp⟩
            exact ⟨p, List.mem_cons_of_mem _ hp, hrp⟩
      · rw [if_neg ha]; exact ih seen d h hdir hseen

theorem mem_globSorted (names : List String) (pat : List Char) (x : String)
    (hx : x ∈ globSorted names pat) : strMatches pat x = true := by
  rw [globSorted, List.mem_insertionSort] at hx
  exact (List.mem_filter.1 hx).2

theorem sorted_globSorted (names : List String) (pat : List Char) :
    (globSorted names pat).Sorted strLe :=
  List.sorted_insertionSort _ _

/-! ## The four glob groups of `candidates` -/

/-- Published `ntu_day_*` matches, when requested. -/
def pubDayGroup (fs : FS) (only : String) (ip : Bool) : List NtuPath :=
  if ip && want_day only then
    (globSorted fs.rootNames dayPat).map (fun n => ⟨false, n⟩) else []

/-- Published `ntu_night_*` matches, when requested. -/
def pubNightGroup (fs : FS) (only : String) (ip : Bool) : List NtuPath :=
  if ip && want_night only then
    (globSorted fs.rootNames nightPat).map (fun n => ⟨false, n⟩) else []

/-- Unpublished `ntu_day_*` matches, when requested and the
`unpublished_sequences` directory exists. -/
def unpubDayGroup (fs : FS) (only : String) (iu : Bool) : List NtuPath :=
  if iu && fs.unpubIsDir && want_day only then
    (globSorted fs.unpubNames dayPat).map (fun n => ⟨true, n⟩) else []

/-- Unpublished `ntu_night_*` matches, when requested and the
`unpublished_sequences` directory exists. -/
def unpubNightGroup (fs : FS) (only : String) (iu : Bool) : List NtuPath :=
  if iu && fs.unpubIsDir && want_night only then
    (globSorted fs.unpubNames nightPat).map (fun n => ⟨true, n⟩) else []

theorem candidates_eq_groups (fs : FS) (only : String) (ip iu : Bool) :
    candidates fs only ip iu =
      pubDayGroup fs only ip ++ pubNightGroup fs only ip ++
        unpubDayGroup fs only iu ++ unpubNightGroup fs only iu := by
  unfold candidates pubDayGroup pubNightGroup unpubDayGroup unpubNightGroup
  cases ip <;> cases iu <;> cases h1 : fs.unpubIsDir <;>
    cases h2 : want_day only <;> cases h3 : want_night only <;> simp

theorem mem_gated_group {gate : Bool} {names : List String} {pat : List Char}
    {b : Bool} {p : NtuPath}
    (hp : p ∈ (if gate then (globSorted names pat).map
      (fun n => NtuPath.mk b n) else [])) :
    p.underUnpub = b ∧ strMatches pat p.name = true := by
  cases gate
  · simp at hp
  · simp only [if_pos] at hp
    rcases List.mem_map.1 hp with ⟨n, hn, rfl⟩
    exact ⟨rfl, mem_globSorted _ _ _ hn⟩

theorem sorted_gated_group (gate : Bool) (names : List String) (pat : List Char)
    (b : Bool) :
    (if gate then (globSorted names pat).map (fun n => NtuPath.mk b n)
      else []).Sorted (fun a c : NtuPath => strLe a.name c.name) := by
  cases gate
  · simp [List.Sorted]
  · simp only [if_pos]
    rw [List.Sorted, List.pairwise_map]
    exact sorted_globSorted names pat

theorem mem_candidates_of_mem_find_dirs {fs : FS} {only : String} {ip iu : Bool}
    {p : NtuPath} (hp : p ∈ find_dirs fs only ip iu) :
    p ∈ candidates fs only ip iu :=
  (dedupDirs_sublist fs (candidates fs only ip iu) []).subset hp

/-- A name matching `ntu_day_*` cannot match `ntu_night_*`: the two patterns
disagree at the fifth character. -/
theorem not_nightPat_of_dayPat (s : String) (h : strMatches dayPat s = true) :
    strMatches nightPat s = false := by
  unfold strMatches at h ⊢
  rcases hs : s.data with _ | ⟨a, _ | ⟨b, _ | ⟨c, _ | ⟨d, _ | ⟨e, l⟩⟩⟩⟩⟩ <;>
    rw [hs] at h <;> simp [chPrefix, dayPat, nightPat] at h ⊢
  obtain ⟨-, -, -, -, h5, -⟩ := h
  intro _ _ _ _ h5'
  exact absurd (h5.trans h5'.symm) (by decide)

/-- A name matching `ntu_night_*` cannot match `ntu_day_*`. -/
theorem not_dayPat_of_nightPat (s : String) (h : strMatches nightPat s = true) :
    strMatches dayPat s = false := by
  by_cases hd : strMatches dayPat s = true
  · rw [not_nightPat_of_dayPat s hd] at h
    exact absurd h (by simp)
  · exact Bool.not_eq_true _ ▸ Bool.of_not_eq_true hd

/-! ## Claim theorems: folder selector -/

/-- C5: for every root and filter combination, the list returned by
`find_dirs` is ordered deterministically as four groups in the fixed order
published-day, published-night, unpublished-day, unpublished-night — each
group present only when the filters request it — with the entries inside
each group sorted lexicographically.  (The returned list is a sublist of the
concatenation of the four groups because the directory filter and the
deduplication only drop elements, preserving order.) -/
theorem find_dirs_four_group_order (fs : FS) (only : String) (ip iu : Bool) :
    List.Sublist (find_dirs fs only ip iu)
      (pubDayGroup fs only ip ++ pubNightGroup fs only ip ++
        unpubDayGroup fs only iu ++ unpubNightGroup fs only iu)
    ∧ (pubDayGroup fs only ip).Sorted (fun a b : NtuPath => strLe a.name b.name)
    ∧ (pubNightGroup fs only ip).Sorted (fun a b : NtuPath => strLe a.name b.name)
    ∧ (unpubDayGroup fs only iu).Sorted (fun a b : NtuPath => strLe a.name b.name)
    ∧ (unpubNightGroup fs only iu).Sorted (fun a b : NtuPath => strLe a.name b.name)
    ∧ ((ip && want_day only) = false → pubDayGroup fs only ip = [])
    ∧ ((ip && want_night only) = false → pubNightGroup fs only ip = [])
    ∧ ((iu && fs.unpubIsDir && want_day only) = false →
        unpubDayGroup fs only iu = [])
    ∧ ((iu && fs.unpubIsDir && want_night only) = false →
        unpubNightGroup fs only iu = [])
    ∧ (∀ p ∈ pubDayGroup fs only ip,
        p.underUnpub = false ∧ strMatches dayPat p.name = true)
    ∧ (∀ p ∈ pubNightGroup fs only ip,
        p.underUnpub = false ∧ strMatches nightPat p.name = true)
    ∧ (∀ p ∈ unpubDayGroup fs only iu,
        p.underUnpub = true ∧ strMatches dayPat p.name = true)
    ∧ (∀ p ∈ unpubNightGroup fs only iu,
        p.underUnpub = true ∧ strMatches nightPat p.name = true) := by
  refine ⟨?_, sorted_gated_group _ _ _ _, sorted_gated_group _ _ _ _,
    sorted_gated_group _ _ _ _, sorted_gated_group _ _ _ _,
    ?_, ?_, ?_, ?_,
    fun p hp => mem_gated_group hp, fun p hp => mem_gated_group hp,
    fun p hp => mem_gated_group hp, fun p hp => mem_gated_group hp⟩
  · rw [← candidates_eq_groups]
    exact dedupDirs_sublist fs _ []
  · intro h; simp [pubDayGroup, h]
  · intro h; simp [pubNightGroup, h]
  · intro h; simp [unpubDayGroup, h]
  · intro h; simp [unpubNightGroup, h]

/-- C6: every path returned by `find_dirs` is a directory, no two returned
paths have the same resolved path, the result is a sublist of the candidate
list (positions preserved), every candidate directory is represented, and
each returned path is the first candidate directory with its resolved
path (first-seen occurrence kept). -/
theorem find_dirs_dirs_only_dedup (fs : FS) (only : String) (ip iu : Bool) :
    (∀ p ∈ find_dirs fs only ip iu, fs.isDir p = true)
    ∧ ((find_dirs fs only ip iu).map fs.resolve).Nodup
    ∧ List.Sublist (find_dirs fs only ip iu) (candidates fs only ip iu)
    ∧ (∀ d ∈ candidates fs only ip iu, fs.isDir d = true →
        ∃ p ∈ find_dirs fs only ip iu, fs.resolve p = fs.resolve d)
    ∧ (∀ p ∈ find_dirs fs only ip iu,
        (candidates fs only ip iu).find?
          (fun x => fs.isDir x && (fs.resolve x == fs.resolve p)) = some p) :=
  ⟨fun p hp => isDir_of_mem_dedupDirs fs _ [] p hp,
    nodup_resolve_dedupDirs fs _ [],
    dedupDirs_sublist fs _ [],
    fun d hd hdir => mem_dedupDirs_exists fs _ [] d hd hdir (by simp),
    fun p hp => find?_of_mem_dedupDirs fs _ [] p hp⟩

/-- C7: the published/unpublished inclusion flags resolve non-exclusively —
neither flag or both flags search both sources, exactly one flag restricts
to that source; with only the published source every returned folder is
outside `unpublished_sequences`, and with only the unpublished source every
returned folder is inside it. -/
theorem inclusion_flags_policy :
    resolveInclusion false false = (true, true)
    ∧ resolveInclusion true false = (true, false)
    ∧ resolveInclusion false true = (false, true)
    ∧ resolveInclusion true true = (true, true)
    ∧ (∀ (fs : FS) (only : String) (p : NtuPath),
        p ∈ find_dirs fs only true false → p.underUnpub = false)
    ∧ (∀ (fs : FS) (only : String) (p : NtuPath),
        p ∈ find_dirs fs only false true → p.underUnpub = true) := by
  refine ⟨rfl, rfl, rfl, rfl, ?_, ?_⟩
  · intro fs only p hp
    have hc := mem_candidates_of_mem_find_dirs hp
    rw [candidates_eq_groups] at hc
    simp only [List.mem_append] at hc
    rcases hc with ((h | h) | h) | h
    · rw [pubDayGroup] at h; exact (mem_gated_group h).1
    · rw [pubNightGroup] at h; exact (mem_gated_group h).1
    · rw [unpubDayGroup] at h; simp at h
    · rw [unpubNightGroup] at h; simp at h
  · intro fs only p hp
    have hc := mem_candidates_of_mem_find_dirs hp
    rw [candidates_eq_groups] at hc
    simp only [List.mem_append] at hc
    rcases hc with ((h | h) | h) | h
    · rw [pubDayGroup] at h; simp at h
    · rw [pubNightGroup] at h; simp at h
    · rw [unpubDayGroup] at h; exact (mem_gated_group h).1
    · rw [unpubNightGroup] at h; exact (mem_gated_group h).1

/-- C8: with `only = "day"` no returned path matches the night pattern, with
`only = "night"` no returned path matches the day pattern, and with
`only = "all"` both pattern groups are included (both `want` predicates hold,
so each source contributes its day and its night glob). -/
theorem day_night_filter :
    (∀ (fs : FS) (ip iu : Bool) (p : NtuPath), p ∈ find_dirs fs "day" ip iu →
      strMatches nightPat p.name = false)
    ∧ (∀ (fs : FS) (ip iu : Bool) (p : NtuPath), p ∈ find_dirs fs "night" ip iu →
      strMatches dayPat p.name = false)
    ∧ want_day "all" = true ∧ want_night "all" = true
    ∧ (∀ (fs : FS) (ip iu : Bool),
        candidates fs "all" ip iu =
          (if ip then (globSorted fs.rootNames dayPat).map (fun n => ⟨false, n⟩)
            ++ (globSorted fs.rootNames nightPat).map (fun n => ⟨false, n⟩) else [])
          ++ (if iu && fs.unpubIsDir then
              (globSorted fs.unpubNames dayPat).map (fun n => ⟨true, n⟩)
              ++ (globSorted fs.unpubNames nightPat).map (fun n => ⟨true, n⟩) else [])) := by
  refine ⟨?_, ?_, rfl, rfl, ?_⟩
  · intro fs ip iu p hp
    have hc := mem_candidates_of_mem_find_dirs hp
    rw [candidates_eq_groups] at hc
    simp only [List.mem_append] at hc
    rcases hc with ((h | h) | h) | h
    · rw [pubDayGroup] at h
      exact not_nightPat_of_dayPat _ (mem_gated_group h).2
    · rw [pubNightGroup] at h; simp [want_night] at h
    · rw [unpubDayGroup] at h
      exact not_nightPat_of_dayPat _ (mem_gated_group h).2
    · rw [unpubNightGroup] at h; simp [want_night] at h
  · intro fs ip iu p hp
    have hc := mem_candidates_of_mem_find_dirs hp
    rw [candidates_eq_groups] at hc
    simp only [List.mem_append] at hc
    rcases hc with ((h | h) | h) | h
    · rw [pubDayGroup] at h; simp [want_day] at h
    · rw [pubNightGroup] at h
      exact not_dayPat_of_nightPat _ (mem_gated_group h).2
    · rw [unpubDayGroup] at h; simp [want_day] at h
    · rw [unpubNightGroup] at h
      exact not_dayPat_of_nightPat _ (mem_gated_group h).2
  · intro fs ip iu
    unfold candidates
    simp [want_day, want_night]

/-- C9: the constructed child command line is exactly, in order: the
roslaunch entry point, the launch file, `bag_file:=<folder>/*.bag` with the
literal unexpanded `*`, `autorun:=true`/`autorun:=false` according to the
flag, then the pass-through extra arguments verbatim. -/
theorem buildArgs_exact (launch_file folder : String) (autorun : Bool)
    (extra_args : List String) :
    buildArgs launch_file folder autorun extra_args =
      ["roslaunch", launch_file, "bag_file:=" ++ folder ++ "/*.bag",
        if autorun then "autorun:=true" else "autorun:=false"] ++ extra_args
    ∧ (buildArgs launch_file folder autorun extra_args)[2]? =
        some ("bag_file:=" ++ folder ++ "/*.bag")
    ∧ '*' ∈ ("bag_file:=" ++ folder ++ "/*.bag").data := by
  have hbag : "bag_file:=" ++ folder ++ "/" ++ "*.bag"
      = "bag_file:=" ++ folder ++ "/*.bag" := by
    rw [String.append_assoc ("bag_file:=" ++ folder) "/" "*.bag"]
    rfl
  have hauto : "autorun:=" ++ (if autorun then "true" else "false")
      = if autorun then "autorun:=true" else "autorun:=false" := by
    cases autorun <;> rfl
  have hmain : buildArgs launch_file folder autorun extra_args =
      ["roslaunch", launch_file, "bag_file:=" ++ folder ++ "/*.bag",
        if autorun then "autorun:=true" else "autorun:=false"] ++ extra_args := by
    unfold buildArgs
    rw [hbag, hauto]
    cases extra_args <;> simp
  refine ⟨hmain, ?_, ?_⟩
  · rw [hmain]; rfl
  · rw [show ("bag_file:=" ++ folder ++ "/*.bag").data
        = ("bag_file:=" ++ folder).data ++ "/*.bag".data from String.data_append ..]
    exact List.mem_append_right _ (by decide)

/-! ## Claim theorems: run driver -/

/-- C1: a KeyboardInterrupt while blocked on a running child sends the child
SIGINT first (never a kill first), waits up to 20 seconds, kills only if the
child is still running after that grace period, re-raises the interrupt, and
the batch loop starts no further folder. -/
theorem interrupt_sigint_grace_abort (sc : Scenario) (rest : List Scenario) (q : ℚ)
    (hs : sc.spawnFails = false) (hw : sc.waitRes = .keyboardInterrupt)
    (hr : sc.runningAtInterrupt = true) :
    ((run_roslaunch_for_folder sc q).events =
        [.spawn, .waitNoTimeout, .sigint, .waitTimeout 20] ∨
      (run_roslaunch_for_folder sc q).events =
        [.spawn, .waitNoTimeout, .sigint, .waitTimeout 20, .kill])
    ∧ (Ev.kill ∈ (run_roslaunch_for_folder sc q).events ↔
        sc.exitsWithinSigintGrace = false)
    ∧ (run_roslaunch_for_folder sc q).status = .interrupted
    ∧ (run_roslaunch_for_folder sc q).finalChild = .exited
    ∧ runBatch (sc :: rest) q = [run_roslaunch_for_folder sc q] := by
  cases heg : sc.exitsWithinSigintGrace <;>
    simp [run_roslaunch_for_folder, runBatch, hs, hw, hr, heg]

/-- C2: on every exit path, if a child was spawned and is still running when
the function unwinds, the cleanup terminates it, waits up to 10 seconds, and
kills it only if it has not exited within that grace period; consequently
the function never returns or raises with the child still running. -/
theorem cleanup_never_leaks_child (sc : Scenario) (q : ℚ) :
    (run_roslaunch_for_folder sc q).finalChild ≠ ChildState.running
    ∧ (sc.spawnFails = false → sc.waitRes = .otherExc →
        sc.runningAtFinally = true →
        ((run_roslaunch_for_folder sc q).events =
            [.spawn, .waitNoTimeout, .terminate, .waitTimeout 10] ∨
          (run_roslaunch_for_folder sc q).events =
            [.spawn, .waitNoTimeout, .terminate, .waitTimeout 10, .kill])
        ∧ (Ev.kill ∈ (run_roslaunch_for_folder sc q).events ↔
            sc.exitsWithinTermGrace = false)
        ∧ (run_roslaunch_for_folder sc q).finalChild = ChildState.exited) := by
  constructor
  · obtain ⟨sf, wr, ri, eg, rf, et⟩ := sc
    cases sf <;> cases wr <;> cases ri <;> cases eg <;> cases rf <;> cases et <;>
      simp [run_roslaunch_for_folder]
  · intro h1 h2 h3
    cases het : sc.exitsWithinTermGrace <;>
      simp [run_roslaunch_for_folder, h1, h2, h3, het]

/-- C3: a non-zero child exit code, a failed spawn, or any other
non-interrupt exception is caught inside `run_roslaunch_for_folder`
(the run ends `Failed`, nothing propagates) and the batch loop proceeds to
the next folder; a run re-raises out of the loop exactly when it is a
KeyboardInterrupt of a spawned child. -/
theorem nonfatal_failure_continues_batch (sc : Scenario) (rest : List Scenario)
    (q : ℚ)
    (h : (∃ rc, rc ≠ 0 ∧ sc.waitRes = .ret rc) ∨ sc.waitRes = .otherExc ∨
      sc.spawnFails = true) :
    (run_roslaunch_for_folder sc q).status = .failed
    ∧ runBatch (sc :: rest) q =
        run_roslaunch_for_folder sc q :: runBatch rest q
    ∧ ((run_roslaunch_for_folder sc q).status = .interrupted ↔
        sc.spawnFails = false ∧ sc.waitRes = .keyboardInterrupt) := by
  have hst : (run_roslaunch_for_folder sc q).status = .failed := by
    rcases h with ⟨rc, hrc, hw⟩ | hw | hsf
    · cases hsf : sc.spawnFails
      · simp [run_roslaunch_for_folder, hsf, hw, hrc]
      · simp [run_roslaunch_for_folder, hsf]
    · cases hsf : sc.spawnFails
      · cases hrf : sc.runningAtFinally <;> cases het : sc.exitsWithinTermGrace <;>
          simp [run_roslaunch_for_folder, hsf, hw, hrf, het]
      · simp [run_roslaunch_for_folder, hsf]
    · simp [run_roslaunch_for_folder, hsf]
  refine ⟨hst, by simp [runBatch, hst], ?_⟩
  rw [hst]
  constructor
  · intro hcon; exact absurd hcon (by simp)
  · rintro ⟨hsf, hw⟩
    rcases h with ⟨rc, hrc, hw'⟩ | hw' | hsf'
    · exact absurd (hw'.symm.trans hw) (by simp)
    · exact absurd (hw'.symm.trans hw) (by simp)
    · exact absurd (hsf'.symm.trans hsf) (by simp)

/-- C10: the post-run pause executes exactly when `sleep_after` is strictly
positive and the run ended `Succeeded` or `Failed`; with `sleep_after ≤ 0`
there is no sleep, and a KeyboardInterrupt re-raises without the pause even
when `sleep_after > 0`. -/
theorem sleep_after_policy (sc : Scenario) (q : ℚ) :
    ((run_roslaunch_for_folder sc q).slept = true ↔
      0 < q ∧ ((run_roslaunch_for_folder sc q).status = .succeeded ∨
        (run_roslaunch_for_folder sc q).status = .failed))
    ∧ ((run_roslaunch_for_folder sc q).status = .interrupted →
        (run_roslaunch_for_folder sc q).slept = false)
    ∧ (q ≤ 0 → (run_roslaunch_for_folder sc q).slept = false) := by
  obtain ⟨sf, wr, ri, eg, rf, et⟩ := sc
  cases sf
  · rcases wr with rc | _ | _
    · rcases eq_or_ne rc 0 with h0 | h0 <;>
        simp [run_roslaunch_for_folder, h0, not_lt, decide_eq_true_eq,
          decide_eq_false_iff_not]
    · cases ri <;> cases eg <;>
        simp [run_roslaunch_for_folder, not_lt, decide_eq_true_eq,
          decide_eq_false_iff_not]
    · cases rf <;> cases et <;>
        simp [run_roslaunch_for_folder, not_lt, decide_eq_true_eq,
          decide_eq_false_iff_not]
  · simp [run_roslaunch_for_folder, not_lt, decide_eq_true_eq,
      decide_eq_false_iff_not]

/-- If no scenario in the list makes its run re-raise, the batch loop runs
every folder and no result is `Interrupted`. -/
theorem runBatch_all_noninterrupted (q : ℚ) :
    ∀ scens : List Scenario,
      (∀ sc ∈ scens, (run_roslaunch_for_folder sc q).status ≠ .interrupted) →
      (runBatch scens q).any (fun r => r.status == .interrupted) = false := by
  intro scens
  induction scens with
  | nil => intro _; simp [runBatch]
  | cons sc rest ih =>
    intro h
    have h1 := h sc (List.mem_cons_self _ _)
    simp only [runBatch]
    rw [if_neg h1]
    simp only [List.any_cons, Bool.or_eq_false_iff]
    refine ⟨by simp [h1], ih fun d hd => h d (List.mem_cons_of_mem _ hd)⟩

/-- C4: the program exits with code 2 when the root is not a directory, 3
when the root exists but the launch file is not a regular file, 4 when the
selector returns no folders, and 0 after processing all selected folders —
in particular whenever no folder's run was interrupted, regardless of the
children's exit codes. -/
theorem main_exit_codes (env : Env) (opts : Opts) :
    (env.rootIsDir = false → main env opts = .exitCode 2)
    ∧ (env.rootIsDir = true → env.launchIsFile = false →
        main env opts = .exitCode 3)
    ∧ (env.rootIsDir = true → env.launchIsFile = true →
        selectedDirs env opts = [] → main env opts = .exitCode 4)
    ∧ (env.rootIsDir = true → env.launchIsFile = true →
        selectedDirs env opts ≠ [] →
        (∀ d ∈ selectedDirs env opts,
          (run_roslaunch_for_folder (env.scen d) opts.sleepAfter).status ≠
            .interrupted) →
        main env opts = .exitCode 0) := by
  refine ⟨?_, ?_, ?_, ?_⟩
  · intro h; simp [main, h]
  · intro h1 h2; simp [main, h1, h2]
  · intro h1 h2 h3; simp [main, h1, h2, h3]
  · intro h1 h2 h3 h4
    have hb : (runBatch ((selectedDirs env opts).map env.scen)
        opts.sleepAfter).any (fun r => r.status == .interrupted) = false := by
      refine runBatch_all_noninterrupted _ _ ?_
      intro sc hsc
      rcases List.mem_map.1 hsc with ⟨d, hd, rfl⟩
      exact h4 d hd
    simp [main, h1, h2, h3, hb]

/-! ## Concrete fixtures and witnesses -/

/-- A small concrete filesystem: two published sequences, one stray
non-directory entry matching the day pattern, one unrelated entry, and one
unpublished day sequence. -/
def fsEx : FS :=
  { rootNames := ["ntu_night_01", "ntu_day_01", "ntu_day_stray", "calib"]
    unpubNames := ["ntu_day_02"]
    unpubIsDir := true
    isDirAt := fun _ n => !(n == "ntu_day_stray")
    resolveAt := fun u n =>
      (if u then "/data/NTU/unpublished_sequences/" else "/data/NTU/") ++ n }

def scInterrupt : Scenario := ⟨false, .keyboardInterrupt, true, true, false, true⟩

def scCrash : Scenario := ⟨false, .otherExc, false, false, true, false⟩

def scNonZero : Scenario := ⟨false, .ret 1, false, false, false, false⟩

def scOk : Scenario := ⟨false, .ret 0, false, false, false, false⟩

def envEx : Env := ⟨true, true, fsEx, fun _ => scOk⟩

def optsEx : Opts := ⟨"all", false, false, 10⟩

/-- Sanity check, matching the example scenario of the spec: with default
flags the selector returns published day, published night, then the
unpublished day folder; the stray file is dropped. -/
theorem find_dirs_example :
    find_dirs fsEx "all" true true =
      [⟨false, "ntu_day_01"⟩, ⟨false, "ntu_night_01"⟩, ⟨true, "ntu_day_02"⟩] := by
  decide

/-- Sanity check: `--only day --published-only` returns just the published
day folder. -/
theorem find_dirs_example_day_published :
    find_dirs fsEx "day" true false = [⟨false, "ntu_day_01"⟩] := by
  decide

theorem interrupt_sigint_grace_abort_witness :
    (run_roslaunch_for_folder scInterrupt 10).status = .interrupted :=
  (interrupt_sigint_grace_abort scInterrupt [scOk] 10 rfl rfl rfl).2.2.1

theorem cleanup_never_leaks_child_witness :
    (run_roslaunch_for_folder scCrash 10).finalChild = ChildState.exited :=
  ((cleanup_never_leaks_child scCrash 10).2 rfl rfl rfl).2.2

theorem nonfatal_failure_continues_batch_witness :
    (run_roslaunch_for_folder scNonZero 10).status = .failed :=
  (nonfatal_failure_continues_batch scNonZero [scOk] 10
    (Or.inl ⟨1, by decide, rfl⟩)).1

theorem main_exit_codes_witness : main envEx optsEx = .exitCode 0 :=
  (main_exit_codes envEx optsEx).2.2.2 rfl rfl (by decide) (by decide)

theorem find_dirs_four_group_order_witness :
    (⟨false, "ntu_day_01"⟩ : NtuPath).underUnpub = false
      ∧ strMatches dayPat (⟨false, "ntu_day_01"⟩ : NtuPath).name = true :=
  (find_dirs_four_group_order fsEx "all" true true).2.2.2.2.2.2.2.2.2.1
    ⟨false, "ntu_day_01"⟩ (by decide)

theorem find_dirs_dirs_only_dedup_witness :
    fsEx.isDir ⟨false, "ntu_day_01"⟩ = true :=
  (find_dirs_dirs_only_dedup fsEx "all" true true).1
    ⟨false, "ntu_day_01"⟩ (by decide)

theorem inclusion_flags_policy_witness :
    (⟨false, "ntu_day_01"⟩ : NtuPath).underUnpub = false :=
  inclusion_flags_policy.2.2.2.2.1 fsEx "all" ⟨false, "ntu_day_01"⟩ (by decide)

theorem day_night_filter_witness :
    strMatches nightPat (⟨false, "ntu_day_01"⟩ : NtuPath).name = false :=
  day_night_filter.1 fsEx true true ⟨false, "ntu_day_01"⟩ (by decide)

theorem sleep_after_policy_witness :
    (run_roslaunch_for_folder scOk 0).slept = false :=
  (sleep_after_policy scOk 0).2.2 le_rfl

end RunAllNtu
